import Mathlib

/-!
# Verification of the tutorNeo chat route and UI turn orchestration

Shallow embedding of the repository's response-normalization protocol:
`src/app/api/chat/route.ts` (context builder, JSON extraction, single-question
enforcement, evaluation normalization, POST handler) and the turn / reset state
updates of `src/app/page.tsx`.

JavaScript strings are modelled as `List Char` (indices are character
positions; the characters relevant here — `?`, braces — are single UTF-16
units, so positions agree with JavaScript's). JavaScript values reachable from
`JSON.parse` plus `undefined` are modelled by `JsValue`; `JSON.parse` itself is
an external library function and is passed in as an abstract
`String → Option JsValue`, `none` standing for a thrown parse error (caught by
the route and turned into `null`).
-/

/-- The whitespace class trimmed by JavaScript `String.prototype.trim`
(ASCII whitespace plus NBSP, BOM and the Unicode line separators; only the
fact that `?`, `{`, `}` are not whitespace matters below). -/
def jsWhitespace (c : Char) : Bool :=
  c == ' ' || c == '\t' || c == '\n' || c == '\r' || c == '\x0b' || c == '\x0c' ||
    c == '\u00A0' || c == '\uFEFF' || c == '\u2028' || c == '\u2029'

/-- JavaScript `s.trim()`: drop leading and trailing whitespace. -/
def jsTrim (l : List Char) : List Char :=
  ((l.dropWhile jsWhitespace).reverse.dropWhile jsWhitespace).reverse

/-- JavaScript `trim` on packed strings. -/
def jsTrimS (s : String) : String :=
  (jsTrim s.toList).asString

/-- JavaScript `s.indexOf(c)`: index of the first occurrence of `c`, `none`
standing for `-1`. -/
def jsIndexOf (c : Char) : List Char → Option Nat
  | [] => none
  | a :: t => if a == c then some 0 else (jsIndexOf c t).map (· + 1)

/-- JavaScript `s.lastIndexOf(c)`: index of the last occurrence of `c`. -/
def jsLastIndexOf (l : List Char) (c : Char) : Option Nat :=
  match jsIndexOf c l.reverse with
  | some k => some (l.length - 1 - k)
  | none => none

/-- The `\x7b` character (opening curly brace). -/
def braceOpen : Char := Char.ofNat 123

/-- The `\x7d` character (closing curly brace). -/
def braceClose : Char := Char.ofNat 125

/-- Model of `route.ts` `enforceSingleQuestion`, on character lists:
`first = reply.indexOf("?")`; if `-1`, return `reply.trim()`;
`second = reply.indexOf("?", first + 1)` (modelled as a search in
`reply.drop (first+1)`); if `-1`, return `reply.trim()`;
otherwise return `reply.slice(0, first + 1).trim()`. -/
def enforceSingleQuestionL (reply : List Char) : List Char :=
  match jsIndexOf '?' reply with
  | none => jsTrim reply
  | some first =>
    match jsIndexOf '?' (reply.drop (first + 1)) with
    | none => jsTrim reply
    | some _ => jsTrim (reply.take (first + 1))

/-- Wrapper for `enforceSingleQuestionL` on packed strings. -/
def enforceSingleQuestion (reply : String) : String :=
  (enforceSingleQuestionL reply.toList).asString

/-- JavaScript values reachable in the route: the `JSON.parse` universe plus
`undefined` (absent property) and non-finite numbers. Finite numbers are
modelled as rationals; `nonFiniteNum` stands for `NaN` / `±Infinity`
(never produced by `JSON.parse`, kept so that `Number.isFinite` is total). -/
inductive JsValue where
  | undefined : JsValue
  | null : JsValue
  | bool (b : Bool) : JsValue
  | num (q : ℚ) : JsValue
  | nonFiniteNum : JsValue
  | str (s : String) : JsValue
  | arr (items : List JsValue) : JsValue
  | obj (fields : List (String × JsValue)) : JsValue

/-- JavaScript truthiness of a `JsValue`. (`NaN` is falsy, `±Infinity` truthy;
the two are merged in `nonFiniteNum`, and the choice is unobservable in the
route: a non-finite `parsed` has no `reply` property either way.) -/
def jsTruthy : JsValue → Bool
  | JsValue.undefined => false
  | JsValue.null => false
  | JsValue.bool b => b
  | JsValue.num q => q != 0
  | JsValue.nonFiniteNum => false
  | JsValue.str s => s != ""
  | JsValue.arr _ => true
  | JsValue.obj _ => true

/-- JavaScript `typeof v === "object"` (true for `null`, arrays and plain objects). -/
def typeofIsObject : JsValue → Bool
  | JsValue.null => true
  | JsValue.arr _ => true
  | JsValue.obj _ => true
  | _ => false

/-- Property access `v.k` for the plain data keys used by the route
(`reply`, `evaluation`, `status`, `score`, `weakConcepts`, `nextActions`,
`summary` — none is a built-in property of arrays, strings or numbers, so
access on a non-object yields `undefined`; on an object with duplicate keys
the last occurrence wins, as in `JSON.parse`). -/
def getField (v : JsValue) (k : String) : JsValue :=
  match v with
  | JsValue.obj fields =>
      (fields.foldl (fun acc p => if p.1 == k then some p.2 else acc) none).getD
        JsValue.undefined
  | _ => JsValue.undefined

/-- Optional chaining `v?.k`: `undefined` when `v` is `null`/`undefined`,
plain access otherwise. -/
def optChainField (v : JsValue) (k : String) : JsValue :=
  match v with
  | JsValue.undefined => JsValue.undefined
  | JsValue.null => JsValue.undefined
  | w => getField w k

/-- JavaScript `xs.filter((item) => typeof item === "string")`, producing the strings. -/
def jsStringFilter : JsValue → List String
  | JsValue.arr items =>
      items.filterMap fun v =>
        match v with
        | JsValue.str s => some s
        | _ => none
  | _ => []

/-- JavaScript `Math.round` on a (finite) number: round half toward
positive infinity, computed as floor division
`(2 num + den) / (2 den)` (see `jsRound_eq_floor`). -/
def jsRound (q : ℚ) : ℤ :=
  (2 * q.num + (q.den : ℤ)) / (2 * (q.den : ℤ))

/-- The normalized evaluation record produced by `normalizeEvaluation`
(`summary := none` models the omitted/`undefined` summary). -/
structure EvaluationRecord where
  status : String
  score : ℤ
  weakConcepts : List String
  nextActions : List String
  summary : Option String
deriving DecidableEq, Repr

/-- Model of `route.ts` `normalizeEvaluation`: reject anything that is not a truthy
`typeof "object"` value, then coerce each field (`status` by strict comparison
with `"Aprobado"`, `score` by `Number.isFinite` check then round-and-clamp,
the two lists by string filtering, `summary` by a string typecheck). -/
def normalizeEvaluation (value : JsValue) : Option EvaluationRecord :=
  if jsTruthy value && typeofIsObject value then
    let status :=
      match getField value ("status") with
      | JsValue.str s => if s == "Aprobado" then ("Aprobado") else ("En proceso")
      | _ => "En proceso"
    let score : ℚ :=
      match getField value ("score") with
      | JsValue.num q => q
      | _ => 0
    let weakConcepts := jsStringFilter (getField value ("weakConcepts"))
    let nextActions := jsStringFilter (getField value ("nextActions"))
    let summary : Option String :=
      match getField value ("summary") with
      | JsValue.str s => some s
      | _ => none
    some
      { status := status
        score := max 0 (min 100 (jsRound score))
        weakConcepts := weakConcepts
        nextActions := nextActions
        summary := summary }
  else none

/-- The candidate substring `text.slice(start, end + 1)` handed to
`JSON.parse` by `extractJson`. -/
def candidateSlice (text : List Char) (s e : Nat) : String :=
  ((text.drop s).take (e + 1 - s)).asString

/-- Model of `route.ts` `extractJson`: locate the first `\x7b` and last `\x7d`; fail
(JavaScript `null`) when either is absent or `end <= start`; otherwise parse
the enclosed slice, a thrown parse error (`parse _ = none`) also yielding
`null`. -/
def extractJsonL (parse : String → Option JsValue) (text : List Char) : JsValue :=
  match jsIndexOf braceOpen text, jsLastIndexOf text braceClose with
  | some s, some e =>
      if e ≤ s then JsValue.null
      else
        match parse (candidateSlice text s e) with
        | some v => v
        | none => JsValue.null
  | _, _ => JsValue.null

/-- The `(text, evaluation)` pair a successful turn responds with. -/
structure TurnResult where
  text : String
  evaluation : Option EvaluationRecord
deriving DecidableEq, Repr

/-- Lines 158–163 of `route.ts` (the response-normalization pipeline of
`POST`): extract the embedded JSON, select `parsed.reply` when `parsed` is
truthy with a string `reply` and fall back to the whole raw text otherwise,
enforce the single question, and normalize `parsed?.evaluation`. -/
def normalizeTurn (parse : String → Option JsValue) (outputText : String) :
    TurnResult :=
  let parsed := extractJsonL parse outputText.toList
  let rawReply :=
    if jsTruthy parsed then
      match getField parsed ("reply") with
      | JsValue.str s => s
      | _ => outputText
    else outputText
  { text := enforceSingleQuestion rawReply
    evaluation := normalizeEvaluation (optChainField parsed ("evaluation")) }

/-- Model of `route.ts` `TaskConfig` (all fields optional strings). -/
structure TaskConfig where
  topic : Option String := none
  objective : Option String := none
  subject : Option String := none
  grade : Option String := none
  durationMin : Option String := none
deriving DecidableEq, Repr

/-- Model of `route.ts` `StudentProfile` (all fields optional strings). -/
structure StudentProfile where
  name : Option String := none
  age : Option String := none
  course : Option String := none
  strengths : Option String := none
  challenges : Option String := none
deriving DecidableEq, Repr

/-- Model of `route.ts` `buildContext`: start from the `"Contexto de tarea:"` header,
push the five task lines (each field defaulted to `"N/D"` by `??`) only when
`task` is present, push the `"Perfil del alumno:"` header, push the five
student lines only when `student` is present, and join with newlines. -/
def buildContext (task : Option TaskConfig) (student : Option StudentProfile) :
    String := Id.run do
  let mut lines : List String := ["Contexto de tarea:"]
  match task with
  | some t =>
      lines := lines.concat ("- Tema: " ++ t.topic.getD ("N/D"))
      lines := lines.concat ("- Objetivo: " ++ t.objective.getD ("N/D"))
      lines := lines.concat ("- Materia: " ++ t.subject.getD ("N/D"))
      lines := lines.concat ("- Grado: " ++ t.grade.getD ("N/D"))
      lines := lines.concat ("- Duracion estimada: " ++ t.durationMin.getD ("N/D") ++ " min")
  | none => pure ()
  lines := lines.concat ("Perfil del alumno:")
  match student with
  | some s =>
      lines := lines.concat ("- Nombre: " ++ s.name.getD ("N/D"))
      lines := lines.concat ("- Edad: " ++ s.age.getD ("N/D"))
      lines := lines.concat ("- Curso: " ++ s.course.getD ("N/D"))
      lines := lines.concat ("- Fortalezas: " ++ s.strengths.getD ("N/D"))
      lines := lines.concat ("- Dificultades: " ++ s.challenges.getD ("N/D"))
  | none => pure ()
  return String.intercalate ("\n") lines

/-- The `role` union of `route.ts` `IncomingMessage`. -/
inductive Role where
  | user : Role
  | assistant : Role
  | system : Role
deriving DecidableEq, Repr

/-- Model of `route.ts` `IncomingMessage`: role plus content. -/
structure IncomingMessage where
  role : Role
  content : String
deriving DecidableEq, Repr

/-- A message as the client may post it: role and content plus the extra
fields (`id`, `ts`) that `page.tsx` stores; `POST` must strip the extras. -/
structure ClientMessage where
  role : Role
  content : String
  id : Option String := none
  ts : Option Int := none
deriving DecidableEq, Repr

/-- Model of `route.ts` `ChatRequest` (every field optional). -/
structure ChatRequest where
  messages : Option (List ClientMessage) := none
  systemPrompt : Option String := none
  model : Option String := none
  apiKey : Option String := none
  taskConfig : Option TaskConfig := none
  student : Option StudentProfile := none
  start : Option Bool := none
deriving DecidableEq, Repr

/-- Optional chaining `s?.trim()`. -/
def optTrim : Option String → Option String
  | some s => some (jsTrimS s)
  | none => none

/-- Model of `route.ts` `FORMAT_INSTRUCTIONS`, verbatim. -/
def FORMAT_INSTRUCTIONS : String :=
  "Responde SOLO en JSON valido con este formato: " ++
    "\x7b\"reply\":\"...\",\"evaluation\":\x7b\"status\":\"Aprobado\"|\"En proceso\",\"score\":0-100,\"weakConcepts\":[\"...\"],\"nextActions\":[\"...\"],\"summary\":\"...\"\x7d\x7d. " ++
    "Reglas para reply: maximo una pregunta (un solo signo ?), si haces una pregunta que sea al final, y no incluyas resumen ni siguientes pasos en reply (eso va en evaluation.summary y nextActions)."

/-- The start-flag instruction segment pushed by `POST`. -/
def startInstruction : String :=
  "Inicia la conversacion con la primera pregunta al alumno."

/-- Lines 122–148 of `route.ts` (the context-builder half of `POST`): push the
trimmed teacher system prompt when truthy, the task/student context block, the
start instruction when `body.start` is truthy, the format instructions, and
finally the client messages mapped down to role and content. -/
def buildInput (body : ChatRequest) : List IncomingMessage := Id.run do
  let mut input : List IncomingMessage := []
  match optTrim body.systemPrompt with
  | some sp =>
      if sp ≠ "" then
        input := input.concat { role := Role.system, content := sp }
  | none => pure ()
  input := input.concat
    { role := Role.system, content := buildContext body.taskConfig body.student }
  if body.start.getD false then
    input := input.concat { role := Role.system, content := startInstruction }
  input := input.concat { role := Role.system, content := FORMAT_INSTRUCTIONS }
  match body.messages with
  | some ms =>
      input := input ++ ms.map fun m => { role := m.role, content := m.content }
  | none => pure ()
  return input

/-- The server environment read by `POST` (`process.env`). -/
structure Env where
  OPENAI_API_KEY : Option String := none
  OPENAI_MODEL : Option String := none
deriving DecidableEq, Repr

/-- Truthiness of a possibly-absent JavaScript string (`""` is falsy). -/
def truthyStr : Option String → Bool
  | none => false
  | some s => s != ""

/-- JavaScript `a || d` for a possibly-absent string `a` and a string
default `d`. -/
def jsOrD (a : Option String) (d : String) : String :=
  match a with
  | some s => if s != "" then s else d
  | none => d

/-- The two response shapes of `POST`: an error body with an HTTP status, or
the success body `\x7b text, evaluation \x7d`. -/
inductive ApiResponse where
  | failure (status : Nat) (error : String) : ApiResponse
  | success (text : String) (evaluation : Option EvaluationRecord) : ApiResponse
deriving DecidableEq, Repr

/-- Model of `route.ts` `POST`. `parse` abstracts `JSON.parse`; `upstream` abstracts
`client.responses.create` (arguments: resolved api key, model, input; result:
the optional `output_text`, or the error message surfaced by the catch block).
The second component records whether the upstream client was invoked. -/
def POST (env : Env) (parse : String → Option JsValue)
    (upstream : String → String → List IncomingMessage → Except String (Option String))
    (body : ChatRequest) : ApiResponse × Bool :=
  let apiKey : Option String :=
    if truthyStr env.OPENAI_API_KEY then env.OPENAI_API_KEY else body.apiKey
  if ¬ truthyStr apiKey then
    (ApiResponse.failure 400 ("Missing OPENAI_API_KEY"), false)
  else
    let model := jsOrD body.model (jsOrD env.OPENAI_MODEL ("gpt-4.1-mini"))
    let input := buildInput body
    match upstream (apiKey.getD ("")) model input with
    | Except.error msg => (ApiResponse.failure 500 msg, true)
    | Except.ok out =>
        let outputText := jsOrD out ("")
        let result := normalizeTurn parse outputText
        (ApiResponse.success result.text result.evaluation, true)

/-- A chat message as stored by `page.tsx` (`id`, `role`, `content`, `ts`). -/
structure UiMessage where
  id : String
  role : String
  content : String
  ts : Int
deriving DecidableEq, Repr

/-- The evaluation as stored by `page.tsx`: the normalized record spread
together with an `updatedAt` timestamp. -/
structure StoredEvaluation where
  record : EvaluationRecord
  updatedAt : Int
deriving DecidableEq, Repr

/-- The `page.tsx` state the turn logic touches: message history, evaluation
record, and the api-error banner. -/
structure UiState where
  messages : List UiMessage
  evaluation : Option StoredEvaluation
  apiError : String
deriving DecidableEq, Repr

/-- The state update of a successful `handleSend` turn in `page.tsx`: append
the user message, append the assistant message built from `data.text || "Sin
respuesta"`, and replace the evaluation only when `data.evaluation` is truthy
(a `null` evaluation leaves the stored record untouched). -/
def handleSendSuccess (st : UiState) (userMsg : UiMessage) (data : TurnResult)
    (assistantId : String) (now : Int) : UiState :=
  let replyText := if data.text != "" then data.text else ("Sin respuesta")
  let afterUser := { st with messages := st.messages.concat userMsg }
  let afterAssistant :=
    { afterUser with
        messages := afterUser.messages.concat
          { id := assistantId, role := "assistant", content := replyText, ts := now } }
  match data.evaluation with
  | some e =>
      { afterAssistant with
          evaluation := some { record := e, updatedAt := now } }
  | none => afterAssistant

/-- Model of `page.tsx` `handleResetChat`: clear messages, evaluation and error. -/
def handleResetChat (st : UiState) : UiState :=
  { st with messages := [], evaluation := none, apiError := "" }

/-! ## Helper lemmas about the string primitives -/

theorem jsIndexOf_eq_none_iff {c : Char} :
    ∀ {l : List Char}, jsIndexOf c l = none ↔ l.count c = 0 := by
  intro l
  induction l with
  | nil => simp [jsIndexOf]
  | cons a t ih =>
    by_cases hac : (a == c) = true
    · have ha : a = c := beq_iff_eq.mp hac
      subst ha
      simp [jsIndexOf, List.count_cons]
    · have ha : ¬ a = c := by
        intro h
        exact hac (beq_iff_eq.mpr h)
      simp [jsIndexOf, hac, List.count_cons, ha, ih]

theorem jsIndexOf_some_spec {c : Char} :
    ∀ {l : List Char} {i : Nat}, jsIndexOf c l = some i →
      (l.take i).count c = 0 ∧ l.take (i + 1) = l.take i ++ [c] := by
  intro l
  induction l with
  | nil => intro i h; simp [jsIndexOf] at h
  | cons a t ih =>
    intro i h
    by_cases hac : (a == c) = true
    · have ha : a = c := beq_iff_eq.mp hac
      subst ha
      simp [jsIndexOf] at h
      subst h
      simp
    · have ha : ¬ a = c := by
        intro h'
        exact hac (beq_iff_eq.mpr h')
      simp [jsIndexOf, hac] at h
      obtain ⟨j, hj, rfl⟩ := h
      obtain ⟨h1, h2⟩ := ih hj
      refine ⟨?_, ?_⟩
      · simp [List.count_cons, ha, h1]
      · simp only [List.take_succ_cons]
        rw [h2]
        simp

theorem count_dropWhile_eq {p : Char → Bool} {c : Char} (hpc : p c = false) :
    ∀ (l : List Char), (l.dropWhile p).count c = l.count c := by
  intro l
  induction l with
  | nil => simp
  | cons a t ih =>
    by_cases hpa : p a = true
    · have ha : ¬ a = c := by
        intro h
        rw [h, hpc] at hpa
        exact Bool.false_ne_true hpa
      simp [List.dropWhile_cons, hpa, List.count_cons, ha, ih]
    · simp [List.dropWhile_cons, hpa]

theorem count_jsTrim {c : Char} (hpc : jsWhitespace c = false) (l : List Char) :
    (jsTrim l).count c = l.count c := by
  unfold jsTrim
  rw [List.count_reverse, count_dropWhile_eq hpc, List.count_reverse,
    count_dropWhile_eq hpc]

theorem dropWhile_concat_of_neg {p : Char → Bool} {c : Char} (hpc : p c = false) :
    ∀ (l : List Char), (l ++ [c]).dropWhile p = l.dropWhile p ++ [c] := by
  intro l
  induction l with
  | nil => simp [List.dropWhile, hpc]
  | cons a t ih =>
    by_cases hpa : p a = true
    · simp [List.dropWhile_cons, hpa, ih]
    · simp [List.dropWhile_cons, hpa]

theorem jsTrim_concat {c : Char} (hpc : jsWhitespace c = false) (l : List Char) :
    jsTrim (l ++ [c]) = l.dropWhile jsWhitespace ++ [c] := by
  unfold jsTrim
  rw [dropWhile_concat_of_neg hpc]
  simp only [List.reverse_append, List.reverse_cons, List.reverse_nil,
    List.nil_append, List.singleton_append, List.dropWhile_cons, hpc]
  simp

/-! ## Claim theorems -/

/-- Claim C1. Single-question enforcement: a reply with zero or one `?` is only
whitespace-trimmed; a reply with two or more `?` is truncated to end
immediately after the first `?` (at index `i`, the value of
`reply.indexOf("?")`) and then trimmed, so the output contains exactly one `?`
and nothing after it (its last character is the `?`). -/
theorem enforceSingleQuestion_spec (reply : List Char) :
    (reply.count '?' ≤ 1 → enforceSingleQuestionL reply = jsTrim reply) ∧
    (2 ≤ reply.count '?' →
      ∃ i, jsIndexOf '?' reply = some i ∧
        enforceSingleQuestionL reply = jsTrim (reply.take (i + 1)) ∧
        (enforceSingleQuestionL reply).count '?' = 1 ∧
        (enforceSingleQuestionL reply).getLast? = some '?') := by
  have hq : jsWhitespace '?' = false := by decide
  cases h1 : jsIndexOf '?' reply with
  | none =>
    have hc : reply.count '?' = 0 := jsIndexOf_eq_none_iff.mp h1
    constructor
    · intro _
      simp [enforceSingleQuestionL, h1]
    · intro h2
      omega
  | some i =>
    obtain ⟨ht0, ht1⟩ := jsIndexOf_some_spec h1
    have hsplit : reply.count '?' =
        (reply.take (i + 1)).count '?' + (reply.drop (i + 1)).count '?' := by
      conv_lhs => rw [← List.take_append_drop (i + 1) reply]
      rw [List.count_append]
    have hc1 : (reply.take (i + 1)).count '?' = 1 := by
      rw [ht1, List.count_append, ht0]
      simp
    constructor
    · intro hle
      have hd : (reply.drop (i + 1)).count '?' = 0 := by omega
      have h2 : jsIndexOf '?' (reply.drop (i + 1)) = none :=
        jsIndexOf_eq_none_iff.mpr hd
      simp [enforceSingleQuestionL, h1, h2]
    · intro hge
      have hd : (reply.drop (i + 1)).count '?' ≠ 0 := by omega
      have h2 : jsIndexOf '?' (reply.drop (i + 1)) ≠ none := fun hnone =>
        hd (jsIndexOf_eq_none_iff.mp hnone)
      obtain ⟨j, hj⟩ := Option.ne_none_iff_exists'.mp h2
      have heq : enforceSingleQuestionL reply = jsTrim (reply.take (i + 1)) := by
        simp [enforceSingleQuestionL, h1, hj]
      refine ⟨i, rfl, heq, ?_, ?_⟩
      · rw [heq, count_jsTrim hq, hc1]
      · rw [heq, ht1, jsTrim_concat hq]
        exact List.getLast?_concat _

/-- Claim C1, witness. The two branches evaluated on concrete replies:
`"  hola?  "` (one `?`) is only trimmed; `"a? b? c"` (two `?`) is cut right
after the first `?`. -/
theorem enforceSingleQuestion_spec_witness :
    ("  hola?  ".toList.count '?' ≤ 1 ∧
      enforceSingleQuestionL ("  hola?  ").toList = jsTrim ("  hola?  ").toList) ∧
    (2 ≤ "a? b? c".toList.count '?' ∧
      ∃ i, jsIndexOf '?' ("a? b? c").toList = some i ∧
        enforceSingleQuestionL ("a? b? c").toList =
          jsTrim ("a? b? c".toList.take (i + 1)) ∧
        (enforceSingleQuestionL ("a? b? c").toList).count '?' = 1 ∧
        (enforceSingleQuestionL ("a? b? c").toList).getLast? = some '?') :=
  ⟨⟨by decide, (enforceSingleQuestion_spec ("  hola?  ").toList).1 (by decide)⟩,
   ⟨by decide, (enforceSingleQuestion_spec ("a? b? c").toList).2 (by decide)⟩⟩

theorem jsRound_eq_floor (q : ℚ) : jsRound q = ⌊q + 1 / 2⌋ := by
  have hq : q + 1 / 2 =
      ((2 * q.num + (q.den : ℤ) : ℤ) : ℚ) / ((2 * q.den : ℕ) : ℚ) := by
    conv_lhs => rw [← Rat.num_div_den q]
    have hden : ((q.den : ℚ)) ≠ 0 := by
      exact_mod_cast q.den_nz
    push_cast
    field_simp
    ring
  rw [hq, Rat.floor_intCast_div_natCast]
  unfold jsRound
  push_cast
  ring_nf

theorem jsRound_eq_round (q : ℚ) : jsRound q = round q := by
  rw [jsRound_eq_floor, round_eq]

theorem extractJsonL_eq_null {parse : String → Option JsValue}
    {text : List Char}
    (h : jsIndexOf braceOpen text = none ∨
      jsLastIndexOf text braceClose = none ∨
      (∀ i j, jsIndexOf braceOpen text = some i →
        jsLastIndexOf text braceClose = some j →
        j ≤ i ∨ parse (candidateSlice text i j) = none)) :
    extractJsonL parse text = JsValue.null := by
  unfold extractJsonL
  cases hA : jsIndexOf braceOpen text with
  | none => rfl
  | some i =>
    cases hB : jsLastIndexOf text braceClose with
    | none => rfl
    | some j =>
      rcases h with h | h | h
      · rw [hA] at h
        exact absurd h (by simp)
      · rw [hB] at h
        exact absurd h (by simp)
      · rcases h i j hA hB with hle | hp
        · simp [if_pos hle]
        · by_cases hle : j ≤ i
          · simp [if_pos hle]
          · simp [if_neg hle, hp]

theorem normalizeTurn_of_null {parse : String → Option JsValue}
    {outputText : String}
    (h : extractJsonL parse outputText.toList = JsValue.null) :
    normalizeTurn parse outputText =
      { text := enforceSingleQuestion outputText, evaluation := none } := by
  unfold normalizeTurn
  rw [h]
  rfl

/-- Claim C2. If the raw output has no `\x7b`, or no `\x7d`, or the slice from
the first `\x7b` to the last `\x7d` fails to parse as JSON, then the turn's
reply is the whole raw text (single-question enforcement and trimming only)
and the evaluation is `null`. The normalizer is a total function — the thrown
`JSON.parse` exception is absorbed into the `parse _ = none` case, so no
exception escapes. -/
theorem malformedJson_fallback (parse : String → Option JsValue)
    (outputText : String)
    (h : jsIndexOf braceOpen outputText.toList = none ∨
      jsLastIndexOf outputText.toList braceClose = none ∨
      (∀ i j, jsIndexOf braceOpen outputText.toList = some i →
        jsLastIndexOf outputText.toList braceClose = some j →
        parse (candidateSlice outputText.toList i j) = none)) :
    normalizeTurn parse outputText =
      { text := enforceSingleQuestion outputText, evaluation := none } := by
  refine normalizeTurn_of_null (extractJsonL_eq_null ?_)
  rcases h with h | h | h
  · exact Or.inl h
  · exact Or.inr (Or.inl h)
  · exact Or.inr (Or.inr fun i j hi hj => Or.inr (h i j hi hj))

/-- Claim C2, witness. The brace-free raw text `"No tengo una respuesta clara."`
falls back to itself with a `null` evaluation. -/
theorem malformedJson_fallback_witness :
    jsIndexOf braceOpen ("No tengo una respuesta clara.").toList = none ∧
    normalizeTurn (fun _ => none) "No tengo una respuesta clara." =
      { text := enforceSingleQuestion ("No tengo una respuesta clara."),
        evaluation := none } :=
  ⟨by decide,
    malformedJson_fallback (fun _ => none) "No tengo una respuesta clara."
      (Or.inl (by decide))⟩

/-- Claim C10. When both braces occur but the last `\x7d` is at or before the
first `\x7b`, extraction fails exactly as when a delimiter is absent: the
reply falls back to the entire raw text and the evaluation is `null`,
whatever `JSON.parse` would do. -/
theorem extractJson_reversedBraces (parse : String → Option JsValue)
    (outputText : String) (i j : Nat)
    (h1 : jsIndexOf braceOpen outputText.toList = some i)
    (h2 : jsLastIndexOf outputText.toList braceClose = some j)
    (hle : j ≤ i) :
    normalizeTurn parse outputText =
      { text := enforceSingleQuestion outputText, evaluation := none } := by
  refine normalizeTurn_of_null (extractJsonL_eq_null ?_)
  refine Or.inr (Or.inr fun i' j' hi' hj' => ?_)
  rw [h1] at hi'
  rw [h2] at hj'
  cases hi'
  cases hj'
  exact Or.inl hle

/-- Claim C10, witness. On the raw text `"\x7d \x7b"` (first `\x7b` at index 2,
last `\x7d` at index 0) the result is the raw text itself with a `null`
evaluation, even for a parse function that accepts every string. -/
theorem extractJson_reversedBraces_witness :
    jsIndexOf braceOpen ("\x7d \x7b").toList = some 2 ∧
    jsLastIndexOf ("\x7d \x7b").toList braceClose = some 0 ∧
    normalizeTurn (fun _ => some (JsValue.obj [])) "\x7d \x7b" =
      { text := enforceSingleQuestion ("\x7d \x7b"), evaluation := none } :=
  ⟨by decide, by decide,
    extractJson_reversedBraces (fun _ => some (JsValue.obj [])) "\x7d \x7b" 2 0
      (by decide) (by decide) (by decide)⟩

/-- Claim C3. The normalized score is an integer in `[0, 100]`: a finite number
input (`getField v "score" = num q`) is rounded to the nearest integer
(`Math.round`, i.e. Mathlib's `round`: half toward positive infinity) and
clamped to the boundaries; every non-number or non-finite input yields `0`. -/
theorem score_clamped (v : JsValue) (r : EvaluationRecord)
    (h : normalizeEvaluation v = some r) :
    0 ≤ r.score ∧ r.score ≤ 100 ∧
    (∀ q : ℚ, getField v ("score") = JsValue.num q →
      r.score = max 0 (min 100 (round q))) ∧
    ((∀ q : ℚ, getField v ("score") ≠ JsValue.num q) → r.score = 0) := by
  unfold normalizeEvaluation at h
  by_cases hg : (jsTruthy v && typeofIsObject v) = true
  · rw [if_pos hg] at h
    injection h with h
    subst h
    refine ⟨le_max_left 0 _, max_le (by norm_num) (min_le_left _ _), ?_, ?_⟩
    · intro q hq
      simp only [hq, jsRound_eq_round]
    · intro hq
      cases hf : getField v ("score") with
      | num q => exact absurd hf (hq q)
      | _ => simp [hf, jsRound]
  · rw [if_neg hg] at h
    exact Option.noConfusion h

/-- Claim C3, witness. The out-of-range score `145` from the spec scenario is
clamped to `100`; the resulting record satisfies the bounds. -/
theorem score_clamped_witness :
    normalizeEvaluation (JsValue.obj [("score", JsValue.num 145)]) =
      some { status := "En proceso", score := 100, weakConcepts := [],
             nextActions := [], summary := none } ∧
    0 ≤ (100 : ℤ) ∧ (100 : ℤ) ≤ 100 :=
  ⟨by decide,
    (score_clamped (JsValue.obj [("score", JsValue.num 145)])
        { status := "En proceso", score := 100, weakConcepts := [],
          nextActions := [], summary := none } (by decide)).1,
    (score_clamped (JsValue.obj [("score", JsValue.num 145)])
        { status := "En proceso", score := 100, weakConcepts := [],
          nextActions := [], summary := none } (by decide)).2.1⟩

/-- Claim C4. The normalized status is one of the two enum literals: the input
status strictly equal to the string `"Aprobado"` maps to `"Aprobado"`, and
every other input — including an absent one (`undefined`) — maps to
`"En proceso"`. -/
theorem status_enum (v : JsValue) (r : EvaluationRecord)
    (h : normalizeEvaluation v = some r) :
    (r.status = "Aprobado" ∨ r.status = "En proceso") ∧
    (getField v ("status") = JsValue.str ("Aprobado") → r.status = "Aprobado") ∧
    (getField v ("status") ≠ JsValue.str ("Aprobado") → r.status = "En proceso") := by
  unfold normalizeEvaluation at h
  by_cases hg : (jsTruthy v && typeofIsObject v) = true
  · rw [if_pos hg] at h
    injection h with h
    subst h
    refine ⟨?_, ?_, ?_⟩
    · cases hf : getField v ("status") with
      | str s =>
          by_cases hs : s == "Aprobado" <;> simp [hf, hs]
      | _ => simp [hf]
    · intro hs
      simp [hs]
    · intro hne
      cases hf : getField v ("status") with
      | str s =>
          have hsne : ¬ s = "Aprobado" := by
            intro hcontra
            subst hcontra
            exact hne hf
          simp [hf, hsne]
      | _ => simp [hf]
  · rw [if_neg hg] at h
    exact Option.noConfusion h

/-- Claim C4, witness. `"Aprobado"` maps through, and a non-matching status
(`"aprobado"`, wrong case) collapses to `"En proceso"`. -/
theorem status_enum_witness :
    normalizeEvaluation (JsValue.obj [("status", JsValue.str ("Aprobado"))]) =
      some { status := "Aprobado", score := 0, weakConcepts := [],
             nextActions := [], summary := none } ∧
    normalizeEvaluation (JsValue.obj [("status", JsValue.str ("aprobado"))]) =
      some { status := "En proceso", score := 0, weakConcepts := [],
             nextActions := [], summary := none } ∧
    ({ status := "Aprobado", score := 0, weakConcepts := [],
       nextActions := [], summary := none } : EvaluationRecord).status =
      "Aprobado" ∧
    ({ status := "En proceso", score := 0, weakConcepts := [],
       nextActions := [], summary := none } : EvaluationRecord).status =
      "En proceso" :=
  ⟨by decide, by decide,
    (status_enum (JsValue.obj [("status", JsValue.str ("Aprobado"))])
        { status := "Aprobado", score := 0, weakConcepts := [],
          nextActions := [], summary := none } (by decide)).2.1 rfl,
    (status_enum (JsValue.obj [("status", JsValue.str ("aprobado"))])
        { status := "En proceso", score := 0, weakConcepts := [],
          nextActions := [], summary := none } (by decide)).2.2
      (by
        intro hcontra
        injection (show JsValue.str ("aprobado") = JsValue.str ("Aprobado") from
          hcontra) with hs
        exact absurd hs (by decide))⟩

/-- Claim C5. `normalizeEvaluation` returns `null` exactly when the candidate is
not an object in the JavaScript sense (the guard `value && typeof value ===
"object"` fails, which happens precisely when the value is neither an array
nor a plain object — in particular when it is absent); for every object input
it returns a complete record whose `summary` is present exactly when the input
summary is a string. -/
theorem normalizeEvaluation_objectGuard (v : JsValue) :
    ((jsTruthy v && typeofIsObject v) = false → normalizeEvaluation v = none) ∧
    ((jsTruthy v && typeofIsObject v) = true →
      ∃ r, normalizeEvaluation v = some r ∧
        (∀ s, r.summary = some s ↔ getField v ("summary") = JsValue.str s)) ∧
    ((jsTruthy v && typeofIsObject v) = true ↔
      (∃ items, v = JsValue.arr items) ∨ (∃ fields, v = JsValue.obj fields)) := by
  refine ⟨?_, ?_, ?_⟩
  · intro hg
    unfold normalizeEvaluation
    rw [hg]
    rfl
  · intro hg
    refine ⟨_, by unfold normalizeEvaluation; rw [if_pos hg], ?_⟩
    intro s
    cases hf : getField v ("summary") with
    | str s' => simp [hf]
    | _ => simp [hf]
  · cases v <;> simp [jsTruthy, typeofIsObject]

/-- Claim C5, witness. A string candidate (not an object) yields `null`; the
object `\x7b summary: "Buen avance" \x7d` yields a record whose summary is
exactly the input string. -/
theorem normalizeEvaluation_objectGuard_witness :
    normalizeEvaluation (JsValue.str ("not an object")) = none ∧
    ∃ r, normalizeEvaluation
          (JsValue.obj [("summary", JsValue.str ("Buen avance"))]) = some r ∧
        (∀ s, r.summary = some s ↔
          getField (JsValue.obj [("summary", JsValue.str ("Buen avance"))])
              "summary" = JsValue.str s) :=
  ⟨(normalizeEvaluation_objectGuard (JsValue.str ("not an object"))).1 (by decide),
    (normalizeEvaluation_objectGuard
        (JsValue.obj [("summary", JsValue.str ("Buen avance"))])).2.1 (by decide)⟩

theorem buildInput_apiKey_irrelevant (body : ChatRequest) (k : Option String) :
    buildInput { body with apiKey := k } = buildInput body := rfl

/-- Claim C6. When neither the server credential (`process.env.OPENAI_API_KEY`)
nor the request's `apiKey` is truthy, `POST` answers with the 400
`"Missing OPENAI_API_KEY"` error and never invokes the upstream client (the
call flag is `false`); when the server credential is truthy it takes
precedence — the response is identical for every request-supplied key. -/
theorem post_credential (env : Env) (parse : String → Option JsValue)
    (upstream :
      String → String → List IncomingMessage → Except String (Option String))
    (body : ChatRequest) :
    (truthyStr env.OPENAI_API_KEY = false → truthyStr body.apiKey = false →
      POST env parse upstream body =
        (ApiResponse.failure 400 ("Missing OPENAI_API_KEY"), false)) ∧
    (truthyStr env.OPENAI_API_KEY = true → ∀ k : Option String,
      POST env parse upstream body =
        POST env parse upstream { body with apiKey := k }) := by
  constructor
  · intro h1 h2
    simp [POST, h1, h2]
  · intro h1 k
    simp [POST, h1, buildInput_apiKey_irrelevant]

/-- Claim C6, witness. An empty environment with a key-less body gets the 400
error without an upstream call; with a server key configured, two requests
differing only in their client-supplied key get the same response. -/
theorem post_credential_witness :
    POST {} (fun _ => none) (fun _ _ _ => Except.ok none) {} =
      (ApiResponse.failure 400 ("Missing OPENAI_API_KEY"), false) ∧
    POST { OPENAI_API_KEY := some ("server-key") } (fun _ => none)
        (fun _ _ _ => Except.ok none) { apiKey := some ("client-key") } =
      POST { OPENAI_API_KEY := some ("server-key") } (fun _ => none)
        (fun _ _ _ => Except.ok none) { apiKey := some ("other-key") } :=
  ⟨(post_credential {} (fun _ => none) (fun _ _ _ => Except.ok none) {}).1
      rfl rfl,
    (post_credential { OPENAI_API_KEY := some ("server-key") } (fun _ => none)
        (fun _ _ _ => Except.ok none) { apiKey := some ("client-key") }).2
      rfl (some ("other-key"))⟩

/-- Claim C7. The context builder emits exactly five segments in a fixed order:
the trimmed teacher system prompt (only when non-empty after trimming), the
task/student context block, the start instruction (only when the start flag is
truthy), the fixed format instructions, and the full message history in
original order with each message reduced to role and content. Determinism is
immediate: `buildInput` is a pure function of `body`. -/
theorem buildInput_order (body : ChatRequest) :
    buildInput body =
      (match optTrim body.systemPrompt with
        | some sp =>
            if sp ≠ "" then [{ role := Role.system, content := sp }] else []
        | none => []) ++
      [{ role := Role.system,
         content := buildContext body.taskConfig body.student }] ++
      (if body.start.getD false then
        [{ role := Role.system, content := startInstruction }]
      else []) ++
      [{ role := Role.system, content := FORMAT_INSTRUCTIONS }] ++
      (body.messages.getD []).map
        (fun m => { role := m.role, content := m.content }) := by
  cases hsp : optTrim body.systemPrompt with
  | none =>
      cases hst : body.start.getD false <;> cases hm : body.messages <;>
        simp [buildInput, Id.run, hsp, hst, hm]
  | some sp =>
      by_cases hne : sp = "" <;>
        cases hst : body.start.getD false <;> cases hm : body.messages <;>
          simp [buildInput, Id.run, hsp, hst, hm, hne]

/-- Claim C8, counterexample. The claim asserts that an absent `TaskConfig` /
`StudentProfile` still yields field lines carrying the `"N/D"` placeholder.
It does not: with both objects absent, `buildContext` emits only the two
headers — no field lines, no `"N/D"` — unlike the present-but-empty objects. -/
theorem buildContext_absent_counterexample :
    buildContext none none = "Contexto de tarea:\nPerfil del alumno:" ∧
    buildContext none none ≠ buildContext (some {}) (some {}) := by
  constructor
  · rfl
  · decide

/-- Claim C8, amended. The context block lists the five task fields with
`"N/D"` substituted for each missing field, followed by the student-profile
header and its five fields under the same placeholder policy — but only when
the respective object is present; an absent `TaskConfig` or `StudentProfile`
contributes no field lines at all, leaving just its header. -/
theorem buildContext_spec (task : Option TaskConfig)
    (student : Option StudentProfile) :
    buildContext task student =
      String.intercalate ("\n")
        (["Contexto de tarea:"] ++
          (match task with
            | some t =>
                ["- Tema: " ++ t.topic.getD ("N/D"),
                 "- Objetivo: " ++ t.objective.getD ("N/D"),
                 "- Materia: " ++ t.subject.getD ("N/D"),
                 "- Grado: " ++ t.grade.getD ("N/D"),
                 "- Duracion estimada: " ++ t.durationMin.getD ("N/D") ++ " min"]
            | none => []) ++
          ["Perfil del alumno:"] ++
          (match student with
            | some s =>
                ["- Nombre: " ++ s.name.getD ("N/D"),
                 "- Edad: " ++ s.age.getD ("N/D"),
                 "- Curso: " ++ s.course.getD ("N/D"),
                 "- Fortalezas: " ++ s.strengths.getD ("N/D"),
                 "- Dificultades: " ++ s.challenges.getD ("N/D")]
            | none => [])) := by
  cases task <;> cases student <;> simp [buildContext, Id.run]

/-- Claim C9. A turn whose normalization yields a `null` evaluation leaves the
stored evaluation record exactly as it was (and a turn can never clear a
previously stored record); only the explicit reset clears it, and the reset
clears the message history and the evaluation record together. -/
theorem evaluation_frame (st : UiState) (userMsg : UiMessage)
    (data : TurnResult) (assistantId : String) (now : Int) :
    (data.evaluation = none →
      (handleSendSuccess st userMsg data assistantId now).evaluation =
        st.evaluation) ∧
    ((handleSendSuccess st userMsg data assistantId now).evaluation = none →
      st.evaluation = none) ∧
    (handleResetChat st).evaluation = none ∧
    (handleResetChat st).messages = [] := by
  refine ⟨?_, ?_, rfl, rfl⟩
  · intro h
    simp [handleSendSuccess, h]
  · intro h
    cases hd : data.evaluation with
    | none => simpa [handleSendSuccess, hd] using h
    | some e => simp [handleSendSuccess, hd] at h

/-- Claim C9, witness. A concrete state holding an evaluation record keeps it
unchanged through a turn whose normalization produced `null`, while the
explicit reset clears record and history together. -/
theorem evaluation_frame_witness :
    (handleSendSuccess { messages := [], evaluation := some { record := { status := "Aprobado", score := 80, weakConcepts := [], nextActions := [], summary := none }, updatedAt := 1 }, apiError := "" } { id := "u1", role := "user", content := "hola", ts := 2 } { text := "ok", evaluation := none } "a1" 3).evaluation = ({ messages := [], evaluation := some { record := { status := "Aprobado", score := 80, weakConcepts := [], nextActions := [], summary := none }, updatedAt := 1 }, apiError := "" } : UiState).evaluation ∧
    (handleResetChat { messages := [{ id := "u1", role := "user", content := "hola", ts := 2 }], evaluation := some { record := { status := "Aprobado", score := 80, weakConcepts := [], nextActions := [], summary := none }, updatedAt := 1 }, apiError := "x" }).evaluation = none :=
  ⟨(evaluation_frame { messages := [], evaluation := some { record := { status := "Aprobado", score := 80, weakConcepts := [], nextActions := [], summary := none }, updatedAt := 1 }, apiError := "" } { id := "u1", role := "user", content := "hola", ts := 2 } { text := "ok", evaluation := none } "a1" 3).1 rfl,
    (evaluation_frame { messages := [{ id := "u1", role := "user", content := "hola", ts := 2 }], evaluation := some { record := { status := "Aprobado", score := 80, weakConcepts := [], nextActions := [], summary := none }, updatedAt := 1 }, apiError := "x" } { id := "u1", role := "user", content := "hola", ts := 2 } { text := "ok", evaluation := none } "a1" 3).2.2.1⟩
